import Mathlib

/-!
# Verification of the Optimal Drone Recharging Scheduling core

Shallow embedding of the ODP sensor-node energy model (`sensornode.h`) and the
genetic-algorithm route planner (`genetic.h`), with proofs of the specified
invariants and functional-correctness properties.

Real-valued physical quantities (`double` in the source) are modelled as exact
rationals where the source only performs field arithmetic and comparisons, and
as reals where the source uses transcendental functions (`sqrt`, `exp`, `pow`,
`tanh`).  Method bodies that are only declared in the available headers (the
implementation translation units are not part of the sources) are modelled from
the specification; each such definition is marked `Modelled from the spec:` in
its doc comment.
-/

namespace ODP

/-! ## Sensor-node parameters (`sensornode.h`, `SN_CONSTANTS` group) -/

/-- Source `#define ALPHA_MAT 3.21` — coefficient of the acoustic channel loss. -/
def ALPHA_MAT : ℚ := 3.21

/-- Source `#define EFF_ACOUS 8.58e-3` — acoustic energy transfer efficiency constant
(the exponent `n` of the angular frequency in the loss coefficient). -/
def EFF_ACOUS : ℚ := 8.58e-3

/-- Source `#define MAX_ACOUS_DIST 0.7` — maximum acoustic transfer distance [m]. -/
def MAX_ACOUS_DIST : ℚ := 0.7

/-- Source `#define PI 3.1415926535897932384626`. -/
def PI : ℚ := 3.1415926535897932384626

/-- Source `#define EFF_PIEZO 0.9` — piezo driver energy conversion efficiency. -/
def EFF_PIEZO : ℚ := 0.9

/-- Source `#define EFF_ACOUS2DC 0.98` — acoustic-to-DC efficiency. -/
def EFF_ACOUS2DC : ℚ := 0.98

/-- Source `#define ACOUS_ENERGY_SEND 12` — energy sent per acoustic transfer [J]. -/
def ACOUS_ENERGY_SEND : ℚ := 12

/-- Source `#define MAX_FAILS 5` — maximum allowable sensing fail times. -/
def MAX_FAILS : Int := 5

/-! ## Protected per-node physical constants

In the source these are `protected` data members of `SensorNode<T>` with fixed
in-class initializers; no constructor or method in the sources assigns them, so
they are embedded as constants. -/

/-- Source `int SC_C = 3` — super-capacitor capacitance [F]. -/
def SC_C : ℚ := 3

/-- Source `double SC_Vmax = 5.` — maximum voltage of the super capacitor [V]. -/
def SC_Vmax : ℚ := 5

/-- Source `double SC_Vmin = 3.5` — minimum voltage of the super capacitor [V]. -/
def SC_Vmin : ℚ := 3.5

/-- Source `double SC_Vcritical = 3.3` — critical voltage of the super capacitor [V]. -/
def SC_Vcritical : ℚ := 3.3

/-- Source `double V_sense = 3.3` — voltage when sensing data [V]. -/
def V_sense : ℚ := 3.3

/-- Source `double I_sense = 1.2e-3` — current when sensing data [A]. -/
def I_sense : ℚ := 1.2e-3

/-- Source `double I_idle = 4e-6` — current when in idle cycle [A]. -/
def I_idle : ℚ := 4e-6

/-! ## Points and sensor nodes -/

/-- A 2-D position (`Point<T>` of `point.h`; only its data is needed here —
its distance computation is an external capability, see `assignEndNodes`). -/
structure Point where
  x : ℚ
  y : ℚ
deriving DecidableEq, Repr

/-- The mutable state of a `SensorNode<T>` (`sensornode.h`): the public data
members together with the protected counter `fails`.  The default field values
are the in-class initializers of the source. -/
structure SensorNode where
  pos : Point := ⟨0, 0⟩
  SC_V : ℚ := 3.4
  SC_E : ℚ := 17.34
  weight : Int := 10
  time_to_change : Int := 1
  p_sensor_type : Bool := true
  fails : Int := 0
deriving DecidableEq, Repr

instance : Inhabited SensorNode := ⟨{}⟩

/-- Source `SensorNode()` — the default constructor: coordinate (0, 0), 3.4 V voltage,
17.34 J energy, full weight, 0 sensing fail times, p-type sensor. -/
def SensorNode.mkDefault : SensorNode := {}

/-- Source `void addOneFail()` — increments `fails` by one, with no cap. -/
def SensorNode.addOneFail (sn : SensorNode) : SensorNode :=
  { sn with fails := sn.fails + 1 }

/-- Source `void resetFail()` — resets `fails` to 0. -/
def SensorNode.resetFail (sn : SensorNode) : SensorNode :=
  { sn with fails := 0 }

/-- Source `double calcPackage()` — returns `0.5 * SC_C * (pow(SC_Vmax, 2.0) - pow(SC_V, 2.0))`. -/
def SensorNode.calcPackage (sn : SensorNode) : ℚ :=
  0.5 * SC_C * (SC_Vmax ^ 2 - sn.SC_V ^ 2)

/-- Source `double calcMaxEnergy()` — returns `0.5 * SC_C * pow(SC_Vmax, 2.0)`. -/
def SensorNode.calcMaxEnergy (_sn : SensorNode) : ℚ :=
  0.5 * SC_C * SC_Vmax ^ 2

/-! ## Clusters (`Cluster<T>` of `sensornode.h`) -/

/-- Source `Cluster<T>::assignEndNodes`: scan `sn_list` and keep every node whose
distance `d` from the cluster center fails the rejection test
`d >= MAX_ACOUS_DIST || d <= 0.1`.  The distance comes from the external
`Point<T>::calcDist` capability (`point.h` is not among the sources), so the
embedding takes the distance function as a parameter. -/
def assignEndNodes (calcDist : Point → Point → ℚ) (center : Point)
    (sn_list : List SensorNode) : List SensorNode :=
  sn_list.filter (fun sn =>
    let d := calcDist center sn.pos
    !(d ≥ MAX_ACOUS_DIST || d ≤ 0.1))

/-! ## Energy–voltage conversions and the acoustic-transfer model

The bodies of `updateVolt`, `updateEnergy` and `acousTransfer` live in a
translation unit that is not among the available sources (only their
declarations appear in `sensornode.h`), so they are modelled from the spec
over the reals. -/

/-- Modelled from the spec: `SensorNode::updateVolt` (body missing from the
sources) — re-synchronises voltage from stored energy by `V = sqrt(2·E/C)`. -/
noncomputable def updateVolt (e : ℝ) : ℝ := Real.sqrt (2 * e / (SC_C : ℝ))

/-- Modelled from the spec: the voltage-form `SensorNode::updateEnergy(double&)`
(body missing from the sources) — `E = 0.5·C·V²`. -/
noncomputable def updateEnergy (v : ℝ) : ℝ := 0.5 * (SC_C : ℝ) * v ^ 2

/-- Modelled from the spec: the time-form
`SensorNode::updateEnergy(const double&, double&)` (body missing from the
sources) — consumption `E -= V·I·t` at current `i`, never driven below 0. -/
noncomputable def updateEnergyTime (sn : SensorNode) (i t : ℝ) : ℝ :=
  max ((sn.SC_E : ℝ) - (sn.SC_V : ℝ) * i * t) 0

/-- Modelled from the spec: the acoustic channel loss coefficient
`g = exp(-ω^n · d · α)` used by `SensorNode::acousTransfer` (body missing
from the sources), with `ω = 2·PI·f` the angular frequency of the fixed
acoustic frequency `f`, exponent `n = EFF_ACOUS` and `α = ALPHA_MAT`. -/
noncomputable def lossCoeff (f d : ℝ) : ℝ :=
  Real.exp (-((2 * (PI : ℝ) * f) ^ (EFF_ACOUS : ℝ) * d * (ALPHA_MAT : ℝ)))

/-- Modelled from the spec: `SensorNode::acousTransfer` (body missing from the
sources).  Sent energy `Et = ηpiezo·g·Esend`; received energy
`Er = ηpiezo·ηacous2dc·Et`; `Er` is added to the stored energy, which is
clamped at the maximum `0.5·C·Vmax²`; the amount actually delivered
(post-clamp) is returned.  First component: the node's new stored energy;
second component: the delivered energy returned to the caller. -/
noncomputable def acousTransfer (sn : SensorNode) (f d : ℝ) : ℝ × ℝ :=
  let g := lossCoeff f d
  let et := (EFF_PIEZO : ℝ) * g * (ACOUS_ENERGY_SEND : ℝ)
  let er := (EFF_PIEZO : ℝ) * (EFF_ACOUS2DC : ℝ) * et
  let enew := min ((sn.SC_E : ℝ) + er) (0.5 * (SC_C : ℝ) * (SC_Vmax : ℝ) ^ 2)
  (enew, enew - (sn.SC_E : ℝ))

/-- Modelled from the spec: the fail-fast invalid-argument contract of
`acousTransfer` — a negative distance is a caller contract violation and is
rejected rather than silently clamped. -/
noncomputable def acousTransferChecked (sn : SensorNode) (f d : ℝ) :
    Except String (ℝ × ℝ) :=
  if d < 0 then .error "invalid argument" else .ok (acousTransfer sn f d)

/-- Modelled from the spec: the fail-fast invalid-argument contract of the
time-based `updateEnergy` — a negative duration is rejected. -/
noncomputable def updateEnergyTimeChecked (sn : SensorNode) (i t : ℝ) :
    Except String ℝ :=
  if t < 0 then .error "invalid argument" else .ok (updateEnergyTime sn i t)

/-! ## Sensing-outcome protocol -/

/-- Result of one simulated sensing attempt. -/
inductive SensingOutcome where
  | success : SensingOutcome
  | failure : SensingOutcome
deriving DecidableEq, Repr

/-- Modelled from the spec: `recordSensingOutcome(success)` together with the
scheduler's dead-node policy (the driver translation unit is not among the
sources): a node whose counter has reached `MAX_FAILS` is dead — reported to
the caller (second component `true`) and no longer scheduled, so its state is
unchanged; otherwise a success resets the counter via the source's
`resetFail` and a failure increments it via the source's `addOneFail`. -/
def recordSensingOutcome (sn : SensorNode) (oc : SensingOutcome) :
    SensorNode × Bool :=
  if sn.fails ≥ MAX_FAILS then (sn, true)
  else
    match oc with
    | .success => (sn.resetFail, false)
    | .failure =>
        let sn1 := sn.addOneFail
        (sn1, decide (sn1.fails ≥ MAX_FAILS))

/-- Run a sequence of sensing outcomes through the protocol. -/
def runOutcomes (sn : SensorNode) (l : List SensingOutcome) : SensorNode :=
  l.foldl (fun s oc => (recordSensingOutcome s oc).1) sn

/-! ## The genetic-algorithm planner (`Genetic<T>` of `genetic.h`)

Only the class declaration of `Genetic<T>` is among the sources; every method
body is modelled from the spec.  Randomness (route shuffling, crossover point
selection, mutation trigger) is drawn from one shared seedable generator,
modelled as an explicitly threaded linear-congruential state. -/

/-- Modelled from the spec: the single shared seedable random generator —
one LCG step on a 32-bit state. -/
def lcgNext (s : Nat) : Nat := (1664525 * s + 1013904223) % 4294967296

/-- Modelled from the spec: per-candidate randomisation of the order of the
requested nodes (Fisher–Yates selection driven by the shared generator);
`n` is the number of elements still to place. -/
def shuffleAux {α : Type} [DecidableEq α] : Nat → List α → Nat → List α × Nat
  | rng, l, 0 => (l, rng)
  | rng, l, n + 1 =>
      let r := lcgNext rng
      match l[r % l.length]? with
      | none => (l, r)
      | some a =>
          let p := shuffleAux r (l.erase a) n
          (a :: p.1, p.2)

/-- Modelled from the spec: shuffle a whole list. -/
def shuffle {α : Type} [DecidableEq α] (rng : Nat) (l : List α) :
    List α × Nat :=
  shuffleAux rng l l.length

/-- Modelled from the spec: the route lengths used by `calcInitGuess` — with
`n` requested nodes and `p` vehicles, the remainder `n % p` nodes are
distributed onto the first sub-sequences, so the first `n % p` routes have
`n / p + 1` nodes and the rest have `n / p`. -/
def balancedSizes (n p : Nat) : List Nat :=
  List.replicate (n % p) (n / p + 1) ++ List.replicate (p - n % p) (n / p)

/-- Cut a list into consecutive chunks of the given sizes. -/
def splitBySizes {α : Type} : List Nat → List α → List (List α)
  | [], _ => []
  | s :: ss, l => l.take s :: splitBySizes ss (l.drop s)

/-- Modelled from the spec: one candidate solution of `calcInitGuess` — the
(already shuffled) requested-node indices partitioned into `p` ordered routes
of balanced lengths. -/
def calcInitGuessSol (perm : List Nat) (p : Nat) : List (List Nat) :=
  splitBySizes (balancedSizes perm.length p) perm

/-- Modelled from the spec: the boolean returned by `calcInitGuess` — whether
the requested-node count divides evenly by the vehicle count. -/
def isMatch (n p : Nat) : Bool := n % p == 0

/-- Modelled from the spec: the population loop of `calcInitGuess` — each of
the `npop` candidates partitions an independently shuffled copy of the
requested indices. -/
def initPopAux (reqIdx : List Nat) (p : Nat) :
    Nat → Nat → List (List (List Nat)) × Nat
  | rng, 0 => ([], rng)
  | rng, k + 1 =>
      let s := shuffle rng reqIdx
      let rest := initPopAux reqIdx p s.2 k
      (calcInitGuessSol s.1 p :: rest.1, rest.2)

/-- Modelled from the spec: `calcInitGuess` — fills the target population and
returns whether the division is exact. -/
def calcInitGuess (rng : Nat) (reqIdx : List Nat) (p npop : Nat) :
    (List (List (List Nat)) × Nat) × Bool :=
  (initPopAux reqIdx p rng npop, isMatch reqIdx.length p)

/-- Exchange the entries at positions `p` and `q` of a route (swap
mutation). -/
def swapPositions (r : List Nat) (p q : Nat) : List Nat :=
  (r.set p (r.getD q 0)).set q (r.getD p 0)

/-- Modelled from the spec: the segment exchange at the heart of `crossover` —
swap the contiguous sub-range `[a, a+b)` of route `i` with the contiguous
sub-range `[c, c+e)` of route `j` of the same candidate.  Whole segments move
between the two routes, so no node index is duplicated or dropped. -/
def crossSegments (sol : List (List Nat)) (i j a b c e : Nat) :
    List (List Nat) :=
  let ri := sol.getD i []
  let rj := sol.getD j []
  let seg1 := (ri.drop a).take b
  let seg2 := (rj.drop c).take e
  if i = j then sol
  else
    (sol.set i (ri.take a ++ seg2 ++ ri.drop (a + b))).set j
      (rj.take c ++ seg1 ++ rj.drop (c + e))

/-- Modelled from the spec: swap mutation — exchange the entries at positions
`pp` and `qq` of route `k`. -/
def mutateSwap (sol : List (List Nat)) (k pp qq : Nat) : List (List Nat) :=
  sol.set k (swapPositions (sol.getD k []) pp qq)

/-- Modelled from the spec: the swap-mutation phase of `crossover` — with the
fixed small probability 10/100 pick a route and two positions within it from
the shared generator and exchange them. -/
def crossoverMutPhase (sol1 : List (List Nat)) (r7 : Nat) :
    List (List Nat) × Nat :=
  if r7 % 100 < 10 then
    let r8 := lcgNext r7
    let r9 := lcgNext r8
    let r10 := lcgNext r9
    let k := r8 % max sol1.length 1
    let rk := sol1.getD k []
    (mutateSwap sol1 k (r9 % max rk.length 1) (r10 % max rk.length 1), r10)
  else (sol1, r7)

/-- Modelled from the spec: the crossover phase on one candidate — pick two
routes and a contiguous sub-range of each from the shared generator, exchange
the sub-ranges, then run the swap-mutation phase. -/
def crossoverCrossPhase (sol : List (List Nat)) (r0 : Nat) :
    List (List Nat) × Nat :=
  let r1 := lcgNext r0
  let r2 := lcgNext r1
  let r3 := lcgNext r2
  let r4 := lcgNext r3
  let r5 := lcgNext r4
  let r6 := lcgNext r5
  let i := r1 % max sol.length 1
  let j := r2 % max sol.length 1
  let ri := sol.getD i []
  let rj := sol.getD j []
  crossoverMutPhase
    (crossSegments sol i j (r3 % (ri.length + 1)) (r4 % (ri.length + 1))
      (r5 % (rj.length + 1)) (r6 % (rj.length + 1)))
    (lcgNext r6)

/-- Modelled from the spec: the `crossover` operator on one candidate — with
probability `crossRatio`/100 swap a contiguous sub-range between two routes of
the candidate, then with a fixed small probability apply a swap mutation (pick
two positions within a route and exchange them).  All random draws come from
the shared generator. -/
def crossoverSol (rng crossRatio : Nat) (sol : List (List Nat)) :
    List (List Nat) × Nat :=
  let r0 := lcgNext rng
  if r0 % 100 < crossRatio then crossoverCrossPhase sol r0
  else (sol, r0)

/-- Modelled from the spec: `crossover` over the whole population — the trail
population is produced candidate by candidate in fixed index order. -/
def crossoverPopAux (crossRatio : Nat) :
    List (List (List Nat)) → Nat → List (List (List Nat)) × Nat
  | [], rng => ([], rng)
  | sol :: rest, rng =>
      let c := crossoverSol rng crossRatio sol
      let r := crossoverPopAux crossRatio rest c.2
      (c.1 :: r.1, r.2)

/-! ## Fitness evaluation and the full planning pipeline

Everything below is modelled from the spec (only declarations of these
`Genetic<T>` members are among the sources); real-valued because the fitness
formula uses `tanh` and Euclidean distances. -/

/-- Modelled from the spec: the external `Point<T>::calcDist` capability —
Euclidean distance between two positions (`point.h` is not among the
sources). -/
noncomputable def calcDistR (a b : Point) : ℝ :=
  Real.sqrt (((a.x : ℝ) - (b.x : ℝ)) ^ 2 + ((a.y : ℝ) - (b.y : ℝ)) ^ 2)

/-- The positions of the nodes visited by a route of node indices. -/
def pathPoints (sn_list : List SensorNode) (route : List Nat) : List Point :=
  route.map (fun i => (sn_list.getD i SensorNode.mkDefault).pos)

/-- Total flight length from a start position along a list of positions. -/
noncomputable def pathLen : Point → List Point → ℝ
  | _, [] => 0
  | cur, p :: rest => calcDistR cur p + pathLen p rest

/-- Select the position nearest to `cur` (first one on ties) and return it
with the remaining positions. -/
noncomputable def pickNearest (cur : Point) :
    List Point → Option (Point × List Point)
  | [] => none
  | p :: rest =>
      match pickNearest cur rest with
      | none => some (p, rest)
      | some (q, rem) =>
          if calcDistR cur p ≤ calcDistR cur q then some (p, rest)
          else some (q, p :: rem)

/-- Select the position farthest from `cur` (first one on ties) and return it
with the remaining positions. -/
noncomputable def pickFarthest (cur : Point) :
    List Point → Option (Point × List Point)
  | [] => none
  | p :: rest =>
      match pickFarthest cur rest with
      | none => some (p, rest)
      | some (q, rem) =>
          if calcDistR cur q ≤ calcDistR cur p then some (p, rest)
          else some (q, p :: rem)

/-- Modelled from the spec: `calcNearNeighDist` — the greedy
nearest-neighbour reference tour, stepping to the nearest unvisited position
each time (fuel-indexed recursion, fuel = number of positions). -/
noncomputable def nearTourAux : Nat → Point → List Point → ℝ
  | 0, _, _ => 0
  | n + 1, cur, pts =>
      match pickNearest cur pts with
      | none => 0
      | some (q, rem) => calcDistR cur q + nearTourAux n q rem

/-- Modelled from the spec: `calcNearNeighDist`. -/
noncomputable def calcNearNeighDist (origin : Point) (pts : List Point) : ℝ :=
  nearTourAux pts.length origin pts

/-- Modelled from the spec: `calcFarNeighDist` — the greedy
farthest-neighbour reference tour. -/
noncomputable def farTourAux : Nat → Point → List Point → ℝ
  | 0, _, _ => 0
  | n + 1, cur, pts =>
      match pickFarthest cur pts with
      | none => 0
      | some (q, rem) => calcDistR cur q + farTourAux n q rem

/-- Modelled from the spec: `calcFarNeighDist`. -/
noncomputable def calcFarNeighDist (origin : Point) (pts : List Point) : ℝ :=
  farTourAux pts.length origin pts

/-- Modelled from the spec: fixed fitness weight α (α + β + γ = 1). -/
def FIT_ALPHA : ℚ := 0.5

/-- Modelled from the spec: fixed fitness weight β. -/
def FIT_BETA : ℚ := 0.3

/-- Modelled from the spec: fixed fitness weight γ. -/
def FIT_GAMMA : ℚ := 0.2

/-- Modelled from the spec: `fitnessFunc` — the weighted sum
`M = α·tanh(E_wsn) + β·inv_tanh(d_pdv) + γ·inv_tanh(E_pdv)` for one vehicle
route, with `E_wsn` the energy delivered to the visited nodes, `inv_tanh` the
decreasing normalisation `x ↦ 1 − tanh x`, `d_pdv` the route length
normalised between the nearest- and farthest-neighbour reference tours, and
the vehicle's own travel energy taken proportional to the route length. -/
noncomputable def fitnessFunc (sn_list : List SensorNode) (origin : Point)
    (route : List Nat) : ℝ :=
  let pts := pathPoints sn_list route
  let eWsn : ℝ :=
    (((route.map (fun i =>
        (sn_list.getD i SensorNode.mkDefault).calcPackage)).sum : ℚ) : ℝ)
  let dPdv := pathLen origin pts
  let dNear := calcNearNeighDist origin pts
  let dFar := calcFarNeighDist origin pts
  let dNorm := (dPdv - dNear) / (dFar - dNear + 1)
  let eNorm := dPdv / (dFar + 1)
  (FIT_ALPHA : ℝ) * Real.tanh eWsn + (FIT_BETA : ℝ) * (1 - Real.tanh dNorm) +
    (FIT_GAMMA : ℝ) * (1 - Real.tanh eNorm)

/-- Aggregate fitness of one candidate solution: the per-vehicle fitness
summed over its routes. -/
noncomputable def solFitness (sn_list : List SensorNode) (origin : Point)
    (sol : List (List Nat)) : ℝ :=
  (sol.map (fitnessFunc sn_list origin)).sum

/-- Modelled from the spec: 'Selection' — greedy replacement in fixed index
order; the trail candidate survives only with strictly higher fitness, ties
keep the target. -/
noncomputable def selectPop (sn_list : List SensorNode) (origin : Point)
    (targets trails : List (List (List Nat))) : List (List (List Nat)) :=
  List.zipWith (fun tgt trl =>
      if solFitness sn_list origin tgt < solFitness sn_list origin trl then trl
      else tgt)
    targets trails

/-- One GA generation: crossover into the trail population, then selection. -/
noncomputable def generationStep (sn_list : List SensorNode) (origin : Point)
    (ratio : Nat) (st : List (List (List Nat)) × Nat) :
    List (List (List Nat)) × Nat :=
  let tr := crossoverPopAux ratio st.1 st.2
  (selectPop sn_list origin st.1 tr.1, tr.2)

/-- The generational loop, capped by a fixed generation count. -/
noncomputable def runGenerations (sn_list : List SensorNode) (origin : Point)
    (ratio : Nat) : Nat → List (List (List Nat)) × Nat →
    List (List (List Nat)) × Nat
  | 0, st => st
  | g + 1, st =>
      runGenerations sn_list origin ratio g
        (generationStep sn_list origin ratio st)

/-- Modelled from the spec: `getBestSol` — scan the fitness vector and return
the index of the maximum, first index encountered on ties. -/
noncomputable def getBestSol (fits : List ℝ) : Nat :=
  (fits.foldl
    (fun acc f =>
      match acc with
      | (_, idx, none) => (idx, idx + 1, some f)
      | (bestIdx, idx, some bf) =>
          if bf < f then (idx, idx + 1, some f)
          else (bestIdx, idx + 1, some bf))
    (0, 0, none)).1

/-- Modelled from the spec: `calcFinalPath` — the whole planning pipeline:
initial-guess population from the seed, a fixed number of generations of
crossover + fitness evaluation + selection, best-solution extraction, and
result shaping (each winning route as a position sequence prefixed by the
depot).  Returns the final population, its fitness vector, the best index and
the shaped best path. -/
noncomputable def calcFinalPath (seed : Nat) (origin : Point)
    (sn_list : List SensorNode) (reqIdx : List Nat)
    (p npop gens ratio : Nat) :
    List (List (List Nat)) × List ℝ × Nat × List (List Point) :=
  let init := initPopAux reqIdx p seed npop
  let fin := runGenerations sn_list origin ratio gens init
  let fits := fin.1.map (solFitness sn_list origin)
  let best := getBestSol fits
  let sol := fin.1.getD best []
  (fin.1, fits, best, sol.map (fun route => origin :: pathPoints sn_list route))

end ODP

namespace ODP

/-! ## Claims C9, C10, C2 -/

/-- C9.  `calcPackage()` returns `0.5·C·(Vmax² − V²)`; under the
energy–voltage coupling `SC_E = 0.5·C·SC_V²` it equals
`calcMaxEnergy() − SC_E`, and for `0 ≤ V ≤ Vmax` it is non-negative. -/
theorem calcPackage_spec (sn : SensorNode)
    (hE : sn.SC_E = 0.5 * SC_C * sn.SC_V ^ 2)
    (h0 : 0 ≤ sn.SC_V) (hmax : sn.SC_V ≤ SC_Vmax) :
    sn.calcPackage = 0.5 * SC_C * (SC_Vmax ^ 2 - sn.SC_V ^ 2) ∧
    sn.calcPackage = sn.calcMaxEnergy - sn.SC_E ∧
    0 ≤ sn.calcPackage := by
  refine ⟨rfl, ?_, ?_⟩
  · rw [hE]
    unfold SensorNode.calcPackage SensorNode.calcMaxEnergy
    ring
  · unfold SensorNode.calcPackage SC_C
    have hsq : sn.SC_V ^ 2 ≤ SC_Vmax ^ 2 := by
      apply pow_le_pow_left₀ h0 hmax
    have : 0 ≤ SC_Vmax ^ 2 - sn.SC_V ^ 2 := by linarith
    nlinarith

/-- Witness for C9 at the default-constructed node. -/
theorem calcPackage_spec_witness :
    (SensorNode.mkDefault.SC_E = 0.5 * SC_C * SensorNode.mkDefault.SC_V ^ 2 ∧
      0 ≤ SensorNode.mkDefault.SC_V ∧ SensorNode.mkDefault.SC_V ≤ SC_Vmax) ∧
    (SensorNode.mkDefault.calcPackage =
        0.5 * SC_C * (SC_Vmax ^ 2 - SensorNode.mkDefault.SC_V ^ 2) ∧
      SensorNode.mkDefault.calcPackage =
        SensorNode.mkDefault.calcMaxEnergy - SensorNode.mkDefault.SC_E ∧
      0 ≤ SensorNode.mkDefault.calcPackage) :=
  ⟨⟨by norm_num [SensorNode.mkDefault, SC_C],
      by norm_num [SensorNode.mkDefault],
      by norm_num [SensorNode.mkDefault, SC_Vmax]⟩,
    calcPackage_spec SensorNode.mkDefault
      (by norm_num [SensorNode.mkDefault, SC_C])
      (by norm_num [SensorNode.mkDefault])
      (by norm_num [SensorNode.mkDefault, SC_Vmax])⟩

/-- C10.  A default-constructed `SensorNode` satisfies the energy–voltage
coupling exactly (`17.34 = 0.5·3·3.4²`), has voltage in `[0, Vmax]`, full
weight 10, and failure counter 0 — the invariant holds from construction. -/
theorem default_node_invariant :
    SensorNode.mkDefault.SC_V = 3.4 ∧
    SensorNode.mkDefault.SC_E = 17.34 ∧
    SensorNode.mkDefault.SC_E = 0.5 * SC_C * SensorNode.mkDefault.SC_V ^ 2 ∧
    0 ≤ SensorNode.mkDefault.SC_V ∧
    SensorNode.mkDefault.SC_V ≤ SC_Vmax ∧
    SensorNode.mkDefault.weight = 10 ∧
    SensorNode.mkDefault.fails = 0 := by
  refine ⟨rfl, rfl, ?_, ?_, ?_, rfl, rfl⟩
  · norm_num [SensorNode.mkDefault, SC_C]
  · norm_num [SensorNode.mkDefault]
  · norm_num [SensorNode.mkDefault, SC_Vmax]

/-- C2.  After `assignEndNodes`, a node is a member of the cluster iff it
occurs in the scanned list and its distance `d` from the center satisfies
`0.1 < d < MAX_ACOUS_DIST`; nodes at or beyond either bound are excluded. -/
theorem assignEndNodes_mem (calcDist : Point → Point → ℚ) (center : Point)
    (sn_list : List SensorNode) (sn : SensorNode) :
    sn ∈ assignEndNodes calcDist center sn_list ↔
      sn ∈ sn_list ∧
        0.1 < calcDist center sn.pos ∧
        calcDist center sn.pos < MAX_ACOUS_DIST := by
  unfold assignEndNodes
  rw [List.mem_filter]
  constructor
  · rintro ⟨hmem, hcond⟩
    refine ⟨hmem, ?_, ?_⟩
    · simp only [Bool.not_eq_true', Bool.or_eq_false_iff, decide_eq_false_iff_not,
        not_le, not_lt] at hcond
      exact hcond.2
    · simp only [Bool.not_eq_true', Bool.or_eq_false_iff, decide_eq_false_iff_not,
        not_le, not_lt] at hcond
      exact hcond.1
  · rintro ⟨hmem, hlo, hhi⟩
    refine ⟨hmem, ?_⟩
    simp only [Bool.not_eq_true', Bool.or_eq_false_iff, decide_eq_false_iff_not,
      not_le]
    exact ⟨hhi, hlo⟩

/-! ## Claim C4 -/

/-- C4.  For `0 ≤ v ≤ Vmax`, `updateVolt (updateEnergy v) = v` (over the
reals the round trip is exact), and in the other direction
`updateEnergy (updateVolt e) = e` for every non-negative energy: the two
conversions are mutually inverse. -/
theorem updateVolt_updateEnergy_round_trip (v : ℝ) (h0 : 0 ≤ v)
    (hmax : v ≤ (SC_Vmax : ℝ)) :
    updateVolt (updateEnergy v) = v ∧
    ∀ e : ℝ, 0 ≤ e → updateEnergy (updateVolt e) = e := by
  have hC : (SC_C : ℝ) = 3 := by norm_num [SC_C]
  constructor
  · unfold updateVolt updateEnergy
    rw [hC]
    have h2 : 2 * (0.5 * 3 * v ^ 2) / 3 = v ^ 2 := by ring
    rw [h2, Real.sqrt_sq h0]
  · intro e he
    unfold updateVolt updateEnergy
    rw [hC]
    have h2 : (0:ℝ) ≤ 2 * e / 3 := by positivity
    rw [Real.sq_sqrt h2]
    ring

/-- Witness for C4 at `v = 3` and `e = 6`. -/
theorem updateVolt_updateEnergy_round_trip_witness :
    ((0:ℝ) ≤ 3 ∧ (3:ℝ) ≤ (SC_Vmax : ℝ) ∧ (0:ℝ) ≤ 6) ∧
    (updateVolt (updateEnergy 3) = 3 ∧ updateEnergy (updateVolt 6) = 6) :=
  have h := updateVolt_updateEnergy_round_trip 3 (by norm_num)
    (by norm_num [SC_Vmax])
  ⟨⟨by norm_num, by norm_num [SC_Vmax], by norm_num⟩,
    h.1, h.2 6 (by norm_num)⟩

/-! ## Claim C3 -/

/-- C3.  For every node and non-negative transfer distance (and
non-negative acoustic frequency), the post-transfer stored energy is at most
the maximum `0.5·C·Vmax²`, and the delivered energy returned is at most the
fixed send energy `ACOUS_ENERGY_SEND`, since the loss coefficient and the
efficiency factors are each at most 1. -/
theorem acousTransfer_bounds (sn : SensorNode) (f d : ℝ) (hf : 0 ≤ f)
    (hd : 0 ≤ d) :
    (acousTransfer sn f d).1 ≤ 0.5 * (SC_C : ℝ) * (SC_Vmax : ℝ) ^ 2 ∧
    (acousTransfer sn f d).2 ≤ (ACOUS_ENERGY_SEND : ℝ) := by
  have hg1 : lossCoeff f d ≤ 1 := by
    unfold lossCoeff
    rw [Real.exp_le_one_iff]
    have hpi : (0:ℝ) ≤ (PI : ℝ) := by norm_num [PI]
    have hw : (0:ℝ) ≤ 2 * (PI : ℝ) * f :=
      mul_nonneg (mul_nonneg (by norm_num) hpi) hf
    have hpow : (0:ℝ) ≤ (2 * (PI : ℝ) * f) ^ (EFF_ACOUS : ℝ) :=
      Real.rpow_nonneg hw _
    have ha : (0:ℝ) ≤ (ALPHA_MAT : ℝ) := by norm_num [ALPHA_MAT]
    have : (0:ℝ) ≤ (2 * (PI : ℝ) * f) ^ (EFF_ACOUS : ℝ) * d * (ALPHA_MAT : ℝ) :=
      mul_nonneg (mul_nonneg hpow hd) ha
    linarith
  have hg0 : (0:ℝ) ≤ lossCoeff f d := (Real.exp_pos _).le
  constructor
  · exact min_le_right _ _
  · show min ((sn.SC_E : ℝ) +
        (EFF_PIEZO : ℝ) * (EFF_ACOUS2DC : ℝ) *
          ((EFF_PIEZO : ℝ) * lossCoeff f d * (ACOUS_ENERGY_SEND : ℝ)))
        (0.5 * (SC_C : ℝ) * (SC_Vmax : ℝ) ^ 2) - (sn.SC_E : ℝ) ≤
      (ACOUS_ENERGY_SEND : ℝ)
    have hmin := min_le_left ((sn.SC_E : ℝ) +
        (EFF_PIEZO : ℝ) * (EFF_ACOUS2DC : ℝ) *
          ((EFF_PIEZO : ℝ) * lossCoeff f d * (ACOUS_ENERGY_SEND : ℝ)))
        (0.5 * (SC_C : ℝ) * (SC_Vmax : ℝ) ^ 2)
    have h2 : (EFF_PIEZO : ℝ) * (EFF_ACOUS2DC : ℝ) *
        ((EFF_PIEZO : ℝ) * lossCoeff f d * (ACOUS_ENERGY_SEND : ℝ)) ≤
        (ACOUS_ENERGY_SEND : ℝ) := by
      norm_num [EFF_PIEZO, EFF_ACOUS2DC, ACOUS_ENERGY_SEND]
      nlinarith [hg0, hg1]
    linarith [hmin, h2]

/-- Witness for C3 at the default node, `f = 1`, `d = 1`. -/
theorem acousTransfer_bounds_witness :
    ((0:ℝ) ≤ 1 ∧ (0:ℝ) ≤ 1) ∧
    ((acousTransfer SensorNode.mkDefault 1 1).1 ≤
        0.5 * (SC_C : ℝ) * (SC_Vmax : ℝ) ^ 2 ∧
      (acousTransfer SensorNode.mkDefault 1 1).2 ≤ (ACOUS_ENERGY_SEND : ℝ)) :=
  ⟨⟨by norm_num, by norm_num⟩,
    acousTransfer_bounds SensorNode.mkDefault 1 1 (by norm_num) (by norm_num)⟩

/-! ## Claim C7 -/

/-- C7.  A negative distance to the acoustic-transfer operation and a
negative duration to the time-based energy-consumption operation fail fast
with an invalid-argument condition; every in-range (non-negative) input is
accepted without an error. -/
theorem checked_inputs_contract (sn : SensorNode) (f d t i : ℝ) :
    (d < 0 → acousTransferChecked sn f d = .error "invalid argument") ∧
    (0 ≤ d → acousTransferChecked sn f d = .ok (acousTransfer sn f d)) ∧
    (t < 0 → updateEnergyTimeChecked sn i t = .error "invalid argument") ∧
    (0 ≤ t → updateEnergyTimeChecked sn i t = .ok (updateEnergyTime sn i t)) := by
  refine ⟨fun h => ?_, fun h => ?_, fun h => ?_, fun h => ?_⟩
  · unfold acousTransferChecked
    rw [if_pos h]
  · unfold acousTransferChecked
    rw [if_neg (not_lt.mpr h)]
  · unfold updateEnergyTimeChecked
    rw [if_pos h]
  · unfold updateEnergyTimeChecked
    rw [if_neg (not_lt.mpr h)]

/-- Witness for C7 at `d = t = -1` (rejected) and `d = t = 0` (accepted). -/
theorem checked_inputs_contract_witness :
    acousTransferChecked SensorNode.mkDefault 1 (-1) =
        .error "invalid argument" ∧
    updateEnergyTimeChecked SensorNode.mkDefault 1 (-1) =
        .error "invalid argument" ∧
    acousTransferChecked SensorNode.mkDefault 1 0 =
        .ok (acousTransfer SensorNode.mkDefault 1 0) ∧
    updateEnergyTimeChecked SensorNode.mkDefault 1 0 =
        .ok (updateEnergyTime SensorNode.mkDefault 1 0) := by
  have h1 := checked_inputs_contract SensorNode.mkDefault 1 (-1) (-1) 1
  have h2 := checked_inputs_contract SensorNode.mkDefault 1 0 0 1
  exact ⟨h1.1 (by norm_num), h1.2.2.1 (by norm_num),
    h2.2.1 (by norm_num), h2.2.2.2 (by norm_num)⟩

/-! ## Claim C6 -/

/-- Single protocol step preserves `0 ≤ fails ≤ MAX_FAILS`. -/
theorem recordSensingOutcome_inv (sn : SensorNode) (oc : SensingOutcome)
    (h0 : 0 ≤ sn.fails) (h5 : sn.fails ≤ MAX_FAILS) :
    0 ≤ ((recordSensingOutcome sn oc).1).fails ∧
      ((recordSensingOutcome sn oc).1).fails ≤ MAX_FAILS := by
  unfold recordSensingOutcome
  by_cases hd : sn.fails ≥ MAX_FAILS
  · rw [if_pos hd]
    exact ⟨h0, h5⟩
  · rw [if_neg hd]
    cases oc with
    | success =>
        simp only [SensorNode.resetFail]
        constructor
        · exact le_refl 0
        · norm_num [MAX_FAILS]
    | failure =>
        simp only [SensorNode.addOneFail]
        simp only [MAX_FAILS] at *
        omega

/-- A whole trace of sensing outcomes preserves `0 ≤ fails ≤ MAX_FAILS`. -/
theorem runOutcomes_inv (l : List SensingOutcome) :
    ∀ sn : SensorNode, 0 ≤ sn.fails → sn.fails ≤ MAX_FAILS →
      0 ≤ (runOutcomes sn l).fails ∧ (runOutcomes sn l).fails ≤ MAX_FAILS := by
  induction l with
  | nil =>
      intro sn h0 h5
      exact ⟨h0, h5⟩
  | cons oc l ih =>
      intro sn h0 h5
      have hstep := recordSensingOutcome_inv sn oc h0 h5
      have heq : runOutcomes sn (oc :: l) =
          runOutcomes (recordSensingOutcome sn oc).1 l := rfl
      rw [heq]
      exact ih _ hstep.1 hstep.2

/-- C6.  Starting from any in-range counter, the sensing-failure counter
never exceeds `MAX_FAILS` along any trace of outcomes; a live node resets the
counter to 0 exactly on a success (a failure yields the non-zero value
`fails + 1`); and a node whose counter has reached `MAX_FAILS` is reported
dead and its state is never changed again. -/
theorem sensing_fails_protocol (sn : SensorNode) (h0 : 0 ≤ sn.fails)
    (h5 : sn.fails ≤ MAX_FAILS) :
    (∀ l, 0 ≤ (runOutcomes sn l).fails ∧
      (runOutcomes sn l).fails ≤ MAX_FAILS) ∧
    (sn.fails < MAX_FAILS →
      (recordSensingOutcome sn .success).1.fails = 0 ∧
      (recordSensingOutcome sn .failure).1.fails = sn.fails + 1 ∧
      (recordSensingOutcome sn .failure).1.fails ≠ 0) ∧
    (MAX_FAILS ≤ sn.fails → ∀ oc, recordSensingOutcome sn oc = (sn, true)) := by
  refine ⟨fun l => runOutcomes_inv l sn h0 h5, fun hlt => ?_, fun hge oc => ?_⟩
  · have hnd : ¬ sn.fails ≥ MAX_FAILS := not_le.mpr hlt
    refine ⟨?_, ?_, ?_⟩
    · unfold recordSensingOutcome
      rw [if_neg hnd]
      exact rfl
    · unfold recordSensingOutcome
      rw [if_neg hnd]
      exact rfl
    · unfold recordSensingOutcome
      rw [if_neg hnd]
      show sn.fails + 1 ≠ 0
      omega
  · unfold recordSensingOutcome
    rw [if_pos hge]

/-- Witness for C6 at the default node (counter 0) and a trace of seven
consecutive failures. -/
theorem sensing_fails_protocol_witness :
    ((0:Int) ≤ SensorNode.mkDefault.fails ∧
      SensorNode.mkDefault.fails ≤ MAX_FAILS) ∧
    (0 ≤ (runOutcomes SensorNode.mkDefault
        [.failure, .failure, .failure, .failure, .failure, .failure,
          .failure]).fails ∧
      (runOutcomes SensorNode.mkDefault
        [.failure, .failure, .failure, .failure, .failure, .failure,
          .failure]).fails ≤ MAX_FAILS) :=
  ⟨⟨by decide, by decide⟩,
    (sensing_fails_protocol SensorNode.mkDefault (by decide) (by decide)).1
      [.failure, .failure, .failure, .failure, .failure, .failure, .failure]⟩

/-! ## Claim C5 — balanced initial-guess partition -/

/-- The list `balancedSizes n p` has exactly `p` entries. -/
theorem balancedSizes_length (n p : Nat) (hp : 0 < p) :
    (balancedSizes n p).length = p := by
  unfold balancedSizes
  have h := Nat.mod_lt n hp
  rw [List.length_append, List.length_replicate, List.length_replicate]
  omega

/-- The balanced route lengths sum to the number of requested nodes. -/
theorem balancedSizes_sum (n p : Nat) (hp : 0 < p) :
    (balancedSizes n p).sum = n := by
  unfold balancedSizes
  have hle : n % p ≤ p := (Nat.mod_lt n hp).le
  obtain ⟨k, hk⟩ := Nat.exists_eq_add_of_le hle
  have hd := Nat.div_add_mod n p
  rw [List.sum_append, List.sum_replicate, List.sum_replicate, smul_eq_mul,
    smul_eq_mul]
  have hpk : p - n % p = k := by omega
  rw [hpk]
  calc n % p * (n / p + 1) + k * (n / p)
      = (n % p + k) * (n / p) + n % p := by ring
    _ = p * (n / p) + n % p := by rw [← hk]
    _ = n := hd

/-- Every balanced route length is `n / p` or `n / p + 1`. -/
theorem balancedSizes_mem (n p s : Nat) (hs : s ∈ balancedSizes n p) :
    s = n / p ∨ s = n / p + 1 := by
  unfold balancedSizes at hs
  rcases List.mem_append.mp hs with h | h
  · exact Or.inr (List.eq_of_mem_replicate h)
  · exact Or.inl (List.eq_of_mem_replicate h)

/-- Chunk lengths of `splitBySizes` are the requested sizes. -/
theorem splitBySizes_map_length {α : Type} (sizes : List Nat) :
    ∀ l : List α, sizes.sum ≤ l.length →
      (splitBySizes sizes l).map List.length = sizes := by
  induction sizes with
  | nil => intro l _; rfl
  | cons s ss ih =>
      intro l h
      rw [List.sum_cons] at h
      simp only [splitBySizes, List.map_cons]
      have h1 : s ≤ l.length := by omega
      have h2 : ss.sum ≤ (l.drop s).length := by
        rw [List.length_drop]; omega
      rw [List.length_take, min_eq_left h1, ih _ h2]

/-- The function `splitBySizes` loses and duplicates nothing: flattening the chunks gives
back the original list when the sizes cover it exactly. -/
theorem splitBySizes_flatten {α : Type} (sizes : List Nat) :
    ∀ l : List α, sizes.sum = l.length → (splitBySizes sizes l).flatten = l := by
  induction sizes with
  | nil =>
      intro l h
      have hl : l = [] := List.length_eq_zero.mp h.symm
      rw [hl]; rfl
  | cons s ss ih =>
      intro l h
      rw [List.sum_cons] at h
      simp only [splitBySizes, List.flatten_cons]
      have h2 : ss.sum = (l.drop s).length := by
        rw [List.length_drop]; omega
      rw [ih _ h2, List.take_append_drop]

/-- One initial-guess candidate covers the shuffled indices exactly. -/
theorem calcInitGuessSol_flatten (perm : List Nat) (p : Nat) (hp : 0 < p) :
    (calcInitGuessSol perm p).flatten = perm := by
  unfold calcInitGuessSol
  exact splitBySizes_flatten _ _ (balancedSizes_sum perm.length p hp)

/-- C5.  `calcInitGuess` partitions the requested nodes into `p` routes
whose lengths are the balanced sizes: when `p` divides the node count all
routes have length `n / p`, in general no two routes differ in length by more
than one, and the returned boolean is true exactly when the division is
exact. -/
theorem calcInitGuess_balanced (perm : List Nat) (p : Nat) (hp : 0 < p) :
    (calcInitGuessSol perm p).length = p ∧
    (calcInitGuessSol perm p).map List.length = balancedSizes perm.length p ∧
    (∀ r1 ∈ calcInitGuessSol perm p, ∀ r2 ∈ calcInitGuessSol perm p,
      r1.length ≤ r2.length + 1) ∧
    (p ∣ perm.length → ∀ r ∈ calcInitGuessSol perm p,
      r.length = perm.length / p) ∧
    (∀ rng npop : Nat, (calcInitGuess rng perm p npop).2 = true ↔
      p ∣ perm.length) := by
  have hsum : (balancedSizes perm.length p).sum = perm.length :=
    balancedSizes_sum perm.length p hp
  have hmap : (calcInitGuessSol perm p).map List.length =
      balancedSizes perm.length p :=
    splitBySizes_map_length _ _ (le_of_eq hsum)
  have hlen : ∀ r ∈ calcInitGuessSol perm p,
      r.length = perm.length / p ∨ r.length = perm.length / p + 1 := by
    intro r hr
    apply balancedSizes_mem
    rw [← hmap]
    exact List.mem_map_of_mem List.length hr
  refine ⟨?_, hmap, ?_, ?_, ?_⟩
  · have := congrArg List.length hmap
    rw [List.length_map] at this
    rw [this, balancedSizes_length _ _ hp]
  · intro r1 h1 r2 h2
    rcases hlen r1 h1 with ha | ha <;> rcases hlen r2 h2 with hb | hb <;> omega
  · intro hdvd r hr
    have hmod : perm.length % p = 0 := Nat.dvd_iff_mod_eq_zero.mp hdvd
    have : r.length ∈ balancedSizes perm.length p := by
      rw [← hmap]; exact List.mem_map_of_mem List.length hr
    unfold balancedSizes at this
    rw [hmod] at this
    simp only [List.replicate, List.nil_append] at this
    exact List.eq_of_mem_replicate this
  · intro rng npop
    unfold calcInitGuess isMatch
    simp only [beq_iff_eq]
    exact ⟨fun h => Nat.dvd_iff_mod_eq_zero.mpr h,
      fun h => Nat.dvd_iff_mod_eq_zero.mp h⟩

/-- Witness for C5: 10 requested nodes over 3 vehicles give route lengths
{4, 3, 3}. -/
theorem calcInitGuess_balanced_witness :
    (0 < 3 ∧
      (calcInitGuessSol [0, 1, 2, 3, 4, 5, 6, 7, 8, 9] 3).map List.length =
        [4, 3, 3]) ∧
    ((calcInitGuessSol [0, 1, 2, 3, 4, 5, 6, 7, 8, 9] 3).length = 3 ∧
      (calcInitGuessSol [0, 1, 2, 3, 4, 5, 6, 7, 8, 9] 3).map List.length =
        balancedSizes 10 3 ∧
      ((calcInitGuess 0 [0, 1, 2, 3, 4, 5, 6, 7, 8, 9] 3 0).2 = true ↔
        3 ∣ (10:Nat))) :=
  have h := calcInitGuess_balanced [0, 1, 2, 3, 4, 5, 6, 7, 8, 9] 3 (by decide)
  ⟨⟨by decide, by decide⟩, h.1, h.2.1, h.2.2.2.2 0 0⟩

/-! ## Claim C1 — the partition invariant across crossover/mutation -/

/-- Moving the element at position `i` to the front is a permutation. -/
theorem getD_cons_set_perm {α : Type} (r : List α) :
    ∀ (i : Nat) (v d : α), i < r.length →
      (r.getD i d :: r.set i v).Perm (v :: r) := by
  induction r with
  | nil => intro i v d h; simp at h
  | cons a t ih =>
      intro i v d h
      cases i with
      | zero =>
          simp only [List.getD_cons_zero, List.set_cons_zero]
          exact List.Perm.swap v a t
      | succ i =>
          have h1 : i < t.length := by simpa using h
          simp only [List.getD_cons_succ, List.set_cons_succ]
          exact (List.Perm.swap a (t.getD i d) (t.set i v)).trans
            ((List.Perm.cons a (ih i v d h1)).trans (List.Perm.swap v a t))

/-- Swap mutation at in-range positions permutes a route. -/
theorem swapPositions_perm (r : List Nat) (p q : Nat) (hp : p < r.length)
    (hq : q < r.length) : (swapPositions r p q).Perm r := by
  unfold swapPositions
  have hq1 : q < (r.set p (r.getD q 0)).length := by
    rw [List.length_set]; exact hq
  have hA := getD_cons_set_perm r p (r.getD q 0) 0 hp
  have hB := getD_cons_set_perm (r.set p (r.getD q 0)) q (r.getD p 0) 0 hq1
  have hgd : (r.set p (r.getD q 0)).getD q 0 = r.getD q 0 := by
    by_cases hpq : p = q
    · subst hpq
      rw [List.getD_eq_getElem?_getD, List.getElem?_set_self hp]
      rfl
    · rw [List.getD_eq_getElem?_getD, List.getElem?_set_ne hpq,
        ← List.getD_eq_getElem?_getD]
  rw [hgd] at hB
  exact (List.perm_cons (r.getD q 0)).mp (hB.trans hA)

/-- Replacing route `i` trades exactly that route inside the flattening. -/
theorem flatten_set_perm {α : Type} (sol : List (List α)) :
    ∀ (i : Nat) (x : List α), i < sol.length →
      ((sol.set i x).flatten ++ sol.getD i []).Perm (x ++ sol.flatten) := by
  induction sol with
  | nil => intro i x h; simp at h
  | cons s tl ih =>
      intro i x h
      cases i with
      | zero =>
          simp only [List.set_cons_zero, List.flatten_cons, List.getD_cons_zero]
          rw [List.append_assoc]
          exact List.Perm.append_left x List.perm_append_comm
      | succ i =>
          have h1 : i < tl.length := by simpa using h
          simp only [List.set_cons_succ, List.flatten_cons, List.getD_cons_succ]
          rw [List.append_assoc]
          refine (List.Perm.append_left s (ih i x h1)).trans ?_
          rw [← List.append_assoc, ← List.append_assoc]
          exact List.Perm.append_right tl.flatten List.perm_append_comm

/-- Replacing route `k` by a permutation of itself permutes the flattening. -/
theorem flatten_set_perm_of {α : Type} (sol : List (List α)) (k : Nat)
    (x : List α) (hk : k < sol.length) (hx : x.Perm (sol.getD k [])) :
    ((sol.set k x).flatten).Perm sol.flatten := by
  have h1 := flatten_set_perm sol k x hk
  have h2 : (x ++ sol.flatten).Perm (sol.getD k [] ++ sol.flatten) :=
    hx.append_right sol.flatten
  have h4 := (h1.trans h2).trans List.perm_append_comm
  exact (List.perm_append_right_iff (sol.getD k [])).mp h4

/-- Replacing two distinct routes whose combined contents are preserved
permutes the flattening. -/
theorem flatten_set_two_perm {α : Type} (sol : List (List α)) (i j : Nat)
    (ri1 rj1 : List α) (hi : i < sol.length) (hj : j < sol.length)
    (hij : i ≠ j)
    (hperm : (ri1 ++ rj1).Perm (sol.getD i [] ++ sol.getD j [])) :
    (((sol.set i ri1).set j rj1).flatten).Perm sol.flatten := by
  have hj1 : j < (sol.set i ri1).length := by rw [List.length_set]; exact hj
  have hgd : (sol.set i ri1).getD j [] = sol.getD j [] := by
    rw [List.getD_eq_getElem?_getD, List.getElem?_set_ne hij,
      ← List.getD_eq_getElem?_getD]
  have h2 := flatten_set_perm (sol.set i ri1) j rj1 hj1
  rw [hgd] at h2
  have h1 := flatten_set_perm sol i ri1 hi
  have h3 := h2.append_right (sol.getD i [])
  have h4 : ((rj1 ++ (sol.set i ri1).flatten) ++ sol.getD i []).Perm
      (rj1 ++ (ri1 ++ sol.flatten)) := by
    rw [List.append_assoc]
    exact List.Perm.append_left rj1 h1
  have ha : (rj1 ++ ri1).Perm (sol.getD j [] ++ sol.getD i []) :=
    List.perm_append_comm.trans (hperm.trans List.perm_append_comm)
  have h5 : (rj1 ++ (ri1 ++ sol.flatten)).Perm
      (sol.flatten ++ (sol.getD j [] ++ sol.getD i [])) := by
    rw [← List.append_assoc]
    exact (ha.append_right sol.flatten).trans List.perm_append_comm
  have h6 := (h3.trans h4).trans h5
  rw [List.append_assoc] at h6
  exact (List.perm_append_right_iff (sol.getD j [] ++ sol.getD i [])).mp h6

/-- The segment exchange preserves the flattened contents. -/
theorem crossSegments_flatten_perm (sol : List (List Nat))
    (i j a b c e : Nat) (hi : i < sol.length) (hj : j < sol.length) :
    ((crossSegments sol i j a b c e).flatten).Perm sol.flatten := by
  unfold crossSegments
  by_cases hij : i = j
  · rw [if_pos hij]
  · rw [if_neg hij]
    apply flatten_set_two_perm sol i j _ _ hi hj hij
    have hri : (sol.getD i []).take a ++
        (((sol.getD i []).drop a).take b ++ (sol.getD i []).drop (a + b)) =
        sol.getD i [] := by
      rw [← List.drop_drop, List.take_append_drop, List.take_append_drop]
    have hrj : (sol.getD j []).take c ++
        (((sol.getD j []).drop c).take e ++ (sol.getD j []).drop (c + e)) =
        sol.getD j [] := by
      rw [← List.drop_drop, List.take_append_drop, List.take_append_drop]
    conv_rhs => rw [← hri, ← hrj]
    rw [← Multiset.coe_eq_coe]
    simp only [← Multiset.coe_add]
    abel

/-- Segment exchange at generator-derived route indices preserves the
flattened contents. -/
theorem crossSegmentsMod_flatten_perm (sol : List (List Nat))
    (x y a b c e : Nat) :
    ((crossSegments sol (x % max sol.length 1) (y % max sol.length 1)
      a b c e).flatten).Perm sol.flatten := by
  by_cases hm : sol.length = 0
  · have h1 : max sol.length 1 = 1 := by rw [hm]; decide
    have hx : x % max sol.length 1 = y % max sol.length 1 := by
      rw [h1, Nat.mod_one, Nat.mod_one]
    unfold crossSegments
    rw [if_pos hx]
  · have hpos : 0 < sol.length := Nat.pos_of_ne_zero hm
    have h1 : max sol.length 1 = sol.length := max_eq_left hpos
    apply crossSegments_flatten_perm
    · rw [h1]; exact Nat.mod_lt x hpos
    · rw [h1]; exact Nat.mod_lt y hpos

/-- Swap mutation at generator-derived positions preserves the flattened
contents. -/
theorem mutateSwapMod_flatten_perm (sol : List (List Nat)) (x y z : Nat) :
    ((mutateSwap sol (x % max sol.length 1)
      (y % max (sol.getD (x % max sol.length 1) []).length 1)
      (z % max (sol.getD (x % max sol.length 1) []).length 1)).flatten).Perm
      sol.flatten := by
  by_cases hm : sol.length = 0
  · have hnil : sol = [] := List.length_eq_zero.mp hm
    subst hnil
    exact List.Perm.refl _
  · have hpos : 0 < sol.length := Nat.pos_of_ne_zero hm
    have h1 : max sol.length 1 = sol.length := max_eq_left hpos
    have hk : x % max sol.length 1 < sol.length := by
      rw [h1]; exact Nat.mod_lt x hpos
    unfold mutateSwap
    apply flatten_set_perm_of _ _ _ hk
    by_cases hrk : (sol.getD (x % max sol.length 1) []).length = 0
    · have hempty : sol.getD (x % max sol.length 1) [] = [] :=
        List.length_eq_zero.mp hrk
      rw [hempty]
      exact List.Perm.refl _
    · have hrpos : 0 < (sol.getD (x % max sol.length 1) []).length :=
        Nat.pos_of_ne_zero hrk
      have h2 : max (sol.getD (x % max sol.length 1) []).length 1 =
          (sol.getD (x % max sol.length 1) []).length := max_eq_left hrpos
      apply swapPositions_perm
      · rw [h2]; exact Nat.mod_lt y hrpos
      · rw [h2]; exact Nat.mod_lt z hrpos

/-- The swap-mutation phase preserves the flattened contents. -/
theorem crossoverMutPhase_flatten_perm (sol1 : List (List Nat)) (r7 : Nat) :
    (((crossoverMutPhase sol1 r7).1).flatten).Perm sol1.flatten := by
  unfold crossoverMutPhase
  split_ifs with h
  · exact mutateSwapMod_flatten_perm _ _ _ _
  · exact List.Perm.refl _

/-- The crossover phase preserves the flattened contents. -/
theorem crossoverCrossPhase_flatten_perm (sol : List (List Nat)) (r0 : Nat) :
    (((crossoverCrossPhase sol r0).1).flatten).Perm sol.flatten := by
  unfold crossoverCrossPhase
  exact (crossoverMutPhase_flatten_perm _ _).trans
    (crossSegmentsMod_flatten_perm _ _ _ _ _ _ _)

/-- The whole per-candidate crossover/mutation operator preserves the
flattened contents. -/
theorem crossoverSol_flatten_perm (rng ratio : Nat) (sol : List (List Nat)) :
    (((crossoverSol rng ratio sol).1).flatten).Perm sol.flatten := by
  simp only [crossoverSol]
  split_ifs with h1
  · exact crossoverCrossPhase_flatten_perm _ _
  · exact List.Perm.refl _

/-- All members of a trail population produced by `crossover` keep the
flattened contents of their targets. -/
theorem crossoverPopAux_flatten_perm (ratio : Nat) (base : List Nat) :
    ∀ (pop : List (List (List Nat))) (rng : Nat),
      (∀ sol ∈ pop, (sol.flatten).Perm base) →
      ∀ sol1 ∈ (crossoverPopAux ratio pop rng).1, (sol1.flatten).Perm base := by
  intro pop
  induction pop with
  | nil =>
      intro rng _ sol1 hmem
      simp [crossoverPopAux] at hmem
  | cons s rest ih =>
      intro rng h sol1 hmem
      simp only [crossoverPopAux] at hmem
      rcases List.mem_cons.mp hmem with heq | hmem2
      · rw [heq]
        exact (crossoverSol_flatten_perm rng ratio s).trans
          (h s (List.mem_cons_self s rest))
      · exact ih _ (fun sol hs => h sol (List.mem_cons_of_mem s hs)) sol1 hmem2

/-- The Fisher–Yates shuffle produces a permutation of its input. -/
theorem shuffleAux_perm {α : Type} [DecidableEq α] :
    ∀ (n rng : Nat) (l : List α), ((shuffleAux rng l n).1).Perm l := by
  intro n
  induction n with
  | zero => intro rng l; exact List.Perm.refl l
  | succ n ih =>
      intro rng l
      simp only [shuffleAux]
      cases heq : l[lcgNext rng % l.length]? with
      | none => simp only [heq]; exact List.Perm.refl l
      | some a =>
          simp only [heq]
          have hmem : a ∈ l := List.getElem?_mem heq
          exact (List.Perm.cons a (ih _ _)).trans
            (List.perm_cons_erase hmem).symm

/-- Every candidate of the initial population flattens to a permutation of
the requested indices. -/
theorem initPopAux_flatten_perm (reqIdx : List Nat) (p : Nat) (hp : 0 < p) :
    ∀ (k rng : Nat), ∀ sol ∈ (initPopAux reqIdx p rng k).1,
      (sol.flatten).Perm reqIdx := by
  intro k
  induction k with
  | zero =>
      intro rng sol hmem
      simp [initPopAux] at hmem
  | succ k ih =>
      intro rng sol hmem
      simp only [initPopAux] at hmem
      rcases List.mem_cons.mp hmem with heq | h2
      · rw [heq, calcInitGuessSol_flatten _ p hp]
        exact shuffleAux_perm _ _ _
      · exact ih _ sol h2

/-- C1.  Every candidate of the target population covers the requested
indices exactly (as a multiset, no duplicate and no omission), and so does
every candidate of the trail population produced from it by the
crossover/swap-mutation operator. -/
theorem population_partition_invariant (rng rng2 ratio p npop : Nat)
    (reqIdx : List Nat) (hp : 0 < p) :
    (∀ sol ∈ (initPopAux reqIdx p rng npop).1,
      (sol.flatten : Multiset Nat) = (reqIdx : Multiset Nat)) ∧
    (∀ sol ∈
        (crossoverPopAux ratio (initPopAux reqIdx p rng npop).1 rng2).1,
      (sol.flatten : Multiset Nat) = (reqIdx : Multiset Nat)) := by
  have h1 := initPopAux_flatten_perm reqIdx p hp npop rng
  refine ⟨fun sol hs => Multiset.coe_eq_coe.mpr (h1 sol hs), fun sol hs => ?_⟩
  exact Multiset.coe_eq_coe.mpr
    (crossoverPopAux_flatten_perm ratio reqIdx _ rng2 h1 sol hs)

/-- Witness for C1 with 8 requested nodes, 3 vehicles, population 2: the
first target candidate and the first trail candidate both cover the requested
indices exactly. -/
theorem population_partition_invariant_witness :
    (0 < 3) ∧
    ((((initPopAux [0, 1, 2, 3, 4, 5, 6, 7] 3 5 2).1.getD 0 []).flatten :
        Multiset Nat) = ([0, 1, 2, 3, 4, 5, 6, 7] : Multiset Nat) ∧
      (((crossoverPopAux 100
          (initPopAux [0, 1, 2, 3, 4, 5, 6, 7] 3 5 2).1 9).1.getD 0
            []).flatten :
        Multiset Nat) = ([0, 1, 2, 3, 4, 5, 6, 7] : Multiset Nat)) :=
  have h := population_partition_invariant 5 9 100 3 2 [0, 1, 2, 3, 4, 5, 6, 7]
    (by decide)
  ⟨by decide, h.1 _ (by decide), h.2 _ (by decide)⟩

/-! ## Claim C8 — determinism of the planning pipeline -/

/-- C8.  Given the same seed and identical inputs, two independent runs of
the full planning pipeline produce identical final populations, fitness
values and best-path output: the planner is a deterministic function of
`(seed, inputs)` because every random draw comes from the explicitly threaded
seedable generator. -/
theorem calcFinalPath_deterministic (seed p npop gens ratio : Nat)
    (origin : Point) (sn_list : List SensorNode) (reqIdx : List Nat)
    (out1 out2 : List (List (List Nat)) × List ℝ × Nat × List (List Point))
    (h1 : out1 = calcFinalPath seed origin sn_list reqIdx p npop gens ratio)
    (h2 : out2 = calcFinalPath seed origin sn_list reqIdx p npop gens ratio) :
    out1 = out2 :=
  h1.trans h2.symm

/-- Witness for C8: two runs at seed 42 over one node agree. -/
theorem calcFinalPath_deterministic_witness :
    calcFinalPath 42 ⟨0, 0⟩ [SensorNode.mkDefault] [0] 1 2 3 80 =
      calcFinalPath 42 ⟨0, 0⟩ [SensorNode.mkDefault] [0] 1 2 3 80 :=
  calcFinalPath_deterministic 42 1 2 3 80 ⟨0, 0⟩ [SensorNode.mkDefault] [0]
    _ _ rfl rfl

end ODP
